import Mathlib

/-
Verification of the application lifecycle reconciler of the Cloud Foundry
terraform provider (cloudfoundry/resource_cf_app.go).

The Go functions are shallowly embedded: remote capabilities (AppManager,
RouteManager) become explicit oracle functions, remote errors become the
`CFError` record below (its `is404` flag models the source's
`strings.Contains(err.Error(), "status code: 404")` test), and the stateful
resource data becomes explicit values threaded through the functions.
-/

set_option autoImplicit false

namespace CFApp

/-- A remote API error. `is404` is true exactly when the error message would
contain the substring tested by the Go code, namely a 404 status code. -/
structure CFError where
  is404 : Bool
  msg : String
deriving DecidableEq, Repr

/-- Outcome of `am.ReadApp(id)` as inspected by the deposed-pruning loop of
`resourceAppRead`: the call either succeeds (the application exists), fails
with a 404 error, or fails with any other error. -/
inductive ReadAppResult where
  | found
  | missing404
  | failedOther
deriving DecidableEq, Repr

/-- Embedding of the deposed-pruning loop at the end of `resourceAppRead`
(resource_cf_app.go lines 743-758): for each tracked id the code calls
`am.ReadApp`; it deletes the entry when the call fails with a 404 AND also
deletes the entry in the `else` branch, i.e. when the call succeeds; an entry
survives only when the call fails with a non-404 error. -/
def pruneDeposed (check : String → ReadAppResult) (deposed : List String) : List String :=
  deposed.filter (fun r =>
    match check r with
    | ReadAppResult.failedOther => true
    | ReadAppResult.missing404 => false
    | ReadAppResult.found => false)

/-- Follows the claim's words (DeposedTracker.reconcileOnRead): an id is
removed exactly when the existence check reports it absent (404) and retained
in every other case, including when the application still exists. Stated only
to compare against `pruneDeposed`, the embedding of the source. -/
def pruneDeposedClaim (check : String → ReadAppResult) (deposed : List String) : List String :=
  deposed.filter (fun r =>
    match check r with
    | ReadAppResult.missing404 => false
    | _ => true)

/-- Which attributes differ between the old and the new application spec, as
reported by `d.HasChange` / the `getChangedValue*` helpers of
`resourceAppUpdate`. Modelled from the spec for the helpers themselves (they
are declared outside this file): a helper raises its tier flag exactly when
the named attribute changed. -/
structure AppChanges where
  name : Bool
  space : Bool
  ports : Bool
  instances : Bool
  memory : Bool
  disk_quota : Bool
  stack : Bool
  buildpack : Bool
  command : Bool
  enable_ssh : Bool
  health_check_http_endpoint : Bool
  health_check_type : Bool
  health_check_timeout : Bool
  environment : Bool
  docker_image : Bool
  docker_credentials : Bool
  url : Bool
  git : Bool
  github_release : Bool
  add_content : Bool
  service_binding : Bool
  route : Bool
  routes : Bool
deriving DecidableEq, Repr

/-- A change vector with no changed attribute. -/
def noChanges : AppChanges :=
  ⟨false, false, false, false, false, false, false, false, false, false, false, false,
   false, false, false, false, false, false, false, false, false, false, false⟩

/-- The `update` flag of `resourceAppUpdate` (lines 778-782 and 805-806):
set by changes to name, space, instances, enable_ssh, docker_image and
docker_credentials; these need no restart. -/
def updateFlag (c : AppChanges) : Bool :=
  c.name || c.space || c.instances || c.enable_ssh || c.docker_image || c.docker_credentials

/-- The `restart` flag of `resourceAppUpdate` (lines 784-791): set by changes
to ports, memory, disk_quota, command and the three health-check attributes. -/
def restartFlag (c : AppChanges) : Bool :=
  c.ports || c.memory || c.disk_quota || c.command ||
  c.health_check_http_endpoint || c.health_check_type || c.health_check_timeout

/-- The `restage` flag of `resourceAppUpdate` (lines 793-796): set by changes
to buildpack, stack and environment. -/
def restageFlag (c : AppChanges) : Bool :=
  c.buildpack || c.stack || c.environment

/-- The CustomizeDiff hook of `resourceApp` (lines 350-361): it calls
`diff.ForceNew` (full replacement) exactly when a docker-side attribute
(docker_image or docker_credentials) changed AND a source-side attribute
(git, github_release or url) changed. -/
def forceNewTriggered (c : AppChanges) : Bool :=
  (c.docker_image || c.docker_credentials) && (c.git || c.github_release || c.url)

/-- The escalating operation tiers of the spec's ChangeClassifier. -/
inductive ChangeTier where
  | noop
  | inPlaceUpdate
  | restart
  | restage
deriving DecidableEq, Repr

/-- Numeric rank of a tier, for the ordering noop < inPlaceUpdate < restart < restage. -/
def ChangeTier.rank : ChangeTier → Nat
  | ChangeTier.noop => 0
  | ChangeTier.inPlaceUpdate => 1
  | ChangeTier.restart => 2
  | ChangeTier.restage => 3

/-- The tier implied by the three flags of `resourceAppUpdate`: the maximum
tier over all changed attributes. -/
def tier (c : AppChanges) : ChangeTier :=
  if restageFlag c then ChangeTier.restage
  else if restartFlag c then ChangeTier.restart
  else if updateFlag c then ChangeTier.inPlaceUpdate
  else ChangeTier.noop

/-- The four mutually exclusive application source kinds of the schema. -/
inductive SourceKind where
  | fromUrl
  | fromGit
  | fromRelease
  | fromDocker
deriving DecidableEq, Repr

/-- The change vector produced by switching the application source from kind
`a` to kind `b`: exactly the attributes carrying the two kinds change. -/
def switchChanges (a b : SourceKind) : AppChanges :=
  { noChanges with
    url := a = SourceKind.fromUrl || b = SourceKind.fromUrl
    git := a = SourceKind.fromGit || b = SourceKind.fromGit
    github_release := a = SourceKind.fromRelease || b = SourceKind.fromRelease
    docker_image := a = SourceKind.fromDocker || b = SourceKind.fromDocker }

/-- A pair of specs differing only in the instance count. -/
def instancesOnly : AppChanges :=
  { noChanges with instances := true }

/-- Attributes whose change requires a new binary upload, as tested in
`resourceAppStandardUpdate` (line 1221) and in the blue-green decision of
`resourceAppUpdate` (line 835): url, git, github_release, add_content. -/
def binaryChanged (c : AppChanges) : Bool :=
  c.url || c.git || c.github_release || c.add_content

/-- The blue-green decision of `resourceAppUpdate` (lines 830-846): the
blue-green path is taken exactly when a blue_green block is present with
enable set, and the restart or restage flag is set or the service_binding,
url, git, github_release or add_content attribute changed. -/
def blueGreenChosen (hasBlueGreenBlock enableFlag : Bool) (c : AppChanges) : Bool :=
  hasBlueGreenBlock && enableFlag &&
    (restartFlag c || restageFlag c || c.service_binding ||
     c.url || c.git || c.github_release || c.add_content)

/-- Follows the claim's words: blue-green is chosen exactly when the tier is
restart-or-higher or a binary, route, or service-binding attribute changed
(given the opt-in). Stated only to compare against `blueGreenChosen`, the
embedding of the source. -/
def blueGreenChosenClaim (hasBlueGreenBlock enableFlag : Bool) (c : AppChanges) : Bool :=
  hasBlueGreenBlock && enableFlag &&
    (restartFlag c || restageFlag c || binaryChanged c ||
     c.route || c.routes || c.service_binding)

/-- A change vector touching only the route attributes. -/
def routesOnlyChanges : AppChanges :=
  { noChanges with route := true, routes := true }

/-- The remote calls and synchronization points of `resourceAppCreateCfApp`
that matter after the application record has been created. -/
inductive CreateStep where
  | createApp
  | spawnUpload
  | bindServices
  | mapDefaultRoute
  | mapLiveRoute
  | joinUpload
  | startApp
  | readBackApp
  | cleanupDeleteApp
deriving DecidableEq, Repr

/-- The inputs of one run of `resourceAppCreateCfApp` (fresh create,
`d.Id() == ""`): the shape of the configuration and the outcome every remote
call would have. A `none` error field means the corresponding call succeeds. -/
structure CreateEnv where
  docker : Bool
  stopped : Bool
  hasBindings : Bool
  defaultRoute : String
  liveRoute : String
  createErr : Option CFError
  bindErr : Option CFError
  mapDefaultErr : Option CFError
  mapLiveErr : Option CFError
  uploadErr : Option CFError
  startErr : Option CFError
  readErr : Option CFError
  cleanupDeleteErr : Option CFError
deriving DecidableEq, Repr

/-- The observable outcome of one run of `resourceAppCreateCfApp`: the trace
of remote calls, the error of the failing step (the named return `err` just
before the deferred cleanup runs), and the error the caller finally sees. -/
structure CreateOutcome where
  trace : List CreateStep
  stepErr : Option CFError
  result : Option CFError
deriving DecidableEq, Repr

/-- The deferred cleanup of `resourceAppCreateCfApp` (lines 537-548): on a
non-nil `err` it calls `am.DeleteApp` on the just-created application; when
that delete itself fails its error `err2` overwrites `err`, otherwise the
original error is kept. -/
def finishWithCleanup (e : CreateEnv) (steps : List CreateStep) (er : CFError) : CreateOutcome :=
  { trace := steps ++ [CreateStep.cleanupDeleteApp]
    stepErr := some er
    result :=
      match e.cleanupDeleteErr with
      | none => some er
      | some d => some d }

/-- Embedding of `resourceAppCreateCfApp` (lines 475-663) on the fresh-create
path, starting at the `am.CreateApp` call: for a non-docker app the upload
task is spawned right after the create, then services are bound, then the
default and live routes are mapped, then the upload channel is joined, then
the app is started unless `stopped`, then the record is read back. The first
failing step stops the run and triggers the deferred cleanup; the deferred
cleanup is installed only after `CreateApp` succeeded. -/
def createCfApp (e : CreateEnv) : CreateOutcome :=
  match e.createErr with
  | some er => ⟨[CreateStep.createApp], some er, some er⟩
  | none =>
    let s1 := [CreateStep.createApp] ++ (if e.docker then [] else [CreateStep.spawnUpload])
    let s2 := if e.hasBindings then s1 ++ [CreateStep.bindServices] else s1
    match (if e.hasBindings then e.bindErr else none) with
    | some er => finishWithCleanup e s2 er
    | none =>
      let s3 := if e.defaultRoute ≠ "" then s2 ++ [CreateStep.mapDefaultRoute] else s2
      match (if e.defaultRoute ≠ "" then e.mapDefaultErr else none) with
      | some er => finishWithCleanup e s3 er
      | none =>
        let s4 := if e.liveRoute ≠ "" then s3 ++ [CreateStep.mapLiveRoute] else s3
        match (if e.liveRoute ≠ "" then e.mapLiveErr else none) with
        | some er => finishWithCleanup e s4 er
        | none =>
          let s5 := if e.docker then s4 else s4 ++ [CreateStep.joinUpload]
          match (if e.docker then none else e.uploadErr) with
          | some er => finishWithCleanup e s5 er
          | none =>
            let s6 := if e.stopped then s5 else s5 ++ [CreateStep.startApp]
            match (if e.stopped then none else e.startErr) with
            | some er => finishWithCleanup e s6 er
            | none =>
              let s7 := s6 ++ [CreateStep.readBackApp]
              match e.readErr with
              | some er => finishWithCleanup e s7 er
              | none => ⟨s7, none, none⟩

/-- Create run in which the service-binding step fails and the cleanup delete
also fails: used to exercise the deferred-cleanup error path. -/
def createEnvBindFailDeleteFail : CreateEnv :=
  { docker := false, stopped := false, hasBindings := true,
    defaultRoute := "route-1", liveRoute := "",
    createErr := none, bindErr := some ⟨false, "binding refused"⟩,
    mapDefaultErr := none, mapLiveErr := none, uploadErr := none,
    startErr := none, readErr := none,
    cleanupDeleteErr := some ⟨false, "delete refused"⟩ }

/-- Create run in which routes and bindings succeed, the upload task fails,
and the cleanup delete also fails. -/
def createEnvUploadFailDeleteFail : CreateEnv :=
  { docker := false, stopped := false, hasBindings := true,
    defaultRoute := "route-1", liveRoute := "",
    createErr := none, bindErr := none,
    mapDefaultErr := none, mapLiveErr := none,
    uploadErr := some ⟨false, "upload broken"⟩,
    startErr := none, readErr := none,
    cleanupDeleteErr := some ⟨false, "delete refused"⟩ }

/-- Create run in which the service-binding step fails and the cleanup delete
succeeds. -/
def createEnvBindFailDeleteOk : CreateEnv :=
  { createEnvBindFailDeleteFail with cleanupDeleteErr := none }

/-- Create run in which the upload task fails and the cleanup delete succeeds. -/
def createEnvUploadFailDeleteOk : CreateEnv :=
  { createEnvUploadFailDeleteFail with cleanupDeleteErr := none }

/-- One `am.UpdateApp` instance-count call issued by the scaling-exchange loop
of `resourceAppBlueGreenUpdate`, with the instance count it requests. -/
inductive ScaleCall where
  | scaleReplacement (n : Nat)
  | scaleVenerable (n : Nat)
deriving DecidableEq, Repr

/-- Embedding of the scaling-exchange loop of `resourceAppBlueGreenUpdate`
(lines 946-973) on its success path: while the replacement count is below the
desired count or the venerable count is above one, first increment the
replacement (if below desired) and push the update, then decrement the
venerable (if above one) and push the update. Returns the sequence of
instance-count updates issued. -/
def scaleExchange (desired newCount venCount : Nat) : List ScaleCall :=
  if newCount < desired ∨ 1 < venCount then
    (if newCount < desired then [ScaleCall.scaleReplacement (newCount + 1)] else []) ++
    (if 1 < venCount then [ScaleCall.scaleVenerable (venCount - 1)] else []) ++
    scaleExchange desired
      (if newCount < desired then newCount + 1 else newCount)
      (if 1 < venCount then venCount - 1 else venCount)
  else []
termination_by (desired - newCount) + venCount
decreasing_by
  simp_wf
  split_ifs <;> omega

/-- The whole scale-and-delete phase of `resourceAppBlueGreenUpdate` on its
success path: the venerable id is first recorded in the deposed map
(lines 899-902), the scaling exchange runs starting from one replacement
instance (lines 933-973), the venerable application is deleted, and on
deletion success its id is removed from the deposed map (lines 975-982). -/
def blueGreenScalePhase (desired venInstances : Nat) (venerableID : String)
    (deposedBefore : List String) (deleteVenerableOk : Bool) :
    List ScaleCall × Bool × List String :=
  let deposedWithVen :=
    if venerableID ∈ deposedBefore then deposedBefore else deposedBefore ++ [venerableID]
  let calls := scaleExchange desired 1 venInstances
  if deleteVenerableOk then
    (calls, true, deposedWithVen.filter (fun x => x ≠ venerableID))
  else
    (calls, false, deposedWithVen)

/-- How `validateRoute` (lines 1484-1503) can fail: either the route is
already mapped (the `fmt.Errorf` case) or the mapping lookup itself failed. -/
inductive RouteValidationError where
  | alreadyMapped
  | readFailure (e : CFError)
deriving DecidableEq, Repr

/-- Embedding of `validateRoute` (lines 1484-1503). `slot` is the looked-up
route value (`none` when the key is absent from the route config); each
element of the mapping list is the optional `app` field of one route mapping
returned by `rm.ReadRouteMappingsByRoute`. The function accepts when the
route has no mapping, or exactly one mapping whose app field equals the
excluded `appID`; every other non-empty mapping list is rejected; a lookup
failure is returned as is. -/
def validateRoute (slot : Option String) (appID : String)
    (readMappingsByRoute : String → Except CFError (List (Option String))) :
    String × Option RouteValidationError :=
  match slot with
  | none => ("", none)
  | some routeID =>
    match readMappingsByRoute routeID with
    | Except.error e => (routeID, some (RouteValidationError.readFailure e))
    | Except.ok mappings =>
      if 0 < mappings.length then
        if mappings.length = 1 ∧ mappings.head? = some (some appID) then
          (routeID, none)
        else
          (routeID, some RouteValidationError.alreadyMapped)
      else
        (routeID, none)

/-- One legacy route slot of the old style `route` block: the route id bound
in the slot (empty string when unset) and the slot's stored mapping id
(`none` when the key is absent from the stored config). -/
structure RouteSlotConfig where
  routeID : String
  mappingID : Option String
deriving DecidableEq, Repr

/-- Embedding of `updateAppRouteMappings` (lines 1505-1544), the legacy-slot
update: when the slot's route id changed, a mapping is created for the new id
(if non-empty), then the old mapping is deleted (if the old id is non-empty
and a mapping id is stored); a 404 from the delete is treated as
already-absent and cleared, any other delete or create error aborts. -/
def updateAppRouteMappings (old new : RouteSlotConfig) (appID : String)
    (createMapping : String → String → Except CFError String)
    (deleteMapping : String → Option CFError) : String × Option CFError :=
  if old.routeID ≠ new.routeID then
    match (if new.routeID ≠ "" then createMapping new.routeID appID else Except.ok "") with
    | Except.error e => ("", some e)
    | Except.ok newMappingID =>
      if old.routeID ≠ "" then
        match old.mappingID with
        | some oldMappingID =>
          match deleteMapping oldMappingID with
          | some e =>
            if e.is404 then (newMappingID, none) else ("", some e)
          | none => (newMappingID, none)
        | none => (newMappingID, none)
      else (newMappingID, none)
  else ("", none)

/-- Embedding of the mappings-to-remove loop of `resourceAppStandardUpdate`
(lines 1190-1203): each entry carrying a non-empty mapping id is deleted
remotely and then removed from the kept routes set; a 404 from the delete is
swallowed and the entry is still removed; any other error aborts the loop.
Returns the mapping ids removed from state and the surfaced error. -/
def removeRoutesSetMappings (ids : List (Option String))
    (deleteMapping : String → Option CFError) : List String × Option CFError :=
  match ids with
  | [] => ([], none)
  | iOpt :: rest =>
    match iOpt with
    | some mid =>
      if 0 < mid.length then
        match deleteMapping mid with
        | some e =>
          if e.is404 then
            let tail := removeRoutesSetMappings rest deleteMapping
            (mid :: tail.1, tail.2)
          else ([], some e)
        | none =>
          let tail := removeRoutesSetMappings rest deleteMapping
          (mid :: tail.1, tail.2)
      else removeRoutesSetMappings rest deleteMapping
    | none => removeRoutesSetMappings rest deleteMapping

/-- Embedding of the route-mapping deletion loops of `resourceAppDelete`
(lines 1329-1363); the legacy slot loop and the routes set loop have the same
logic: delete each present, non-empty mapping id; swallow a 404; abort on any
other error. -/
def deleteMappingsPhase (ids : List (Option String))
    (deleteMapping : String → Option CFError) : Option CFError :=
  match ids with
  | [] => none
  | iOpt :: rest =>
    match iOpt with
    | some mid =>
      if 0 < mid.length then
        match deleteMapping mid with
        | some e =>
          if e.is404 then deleteMappingsPhase rest deleteMapping else some e
        | none => deleteMappingsPhase rest deleteMapping
      else deleteMappingsPhase rest deleteMapping
    | none => deleteMappingsPhase rest deleteMapping

/-- One element of the `service_binding` list as seen by
`removeServiceBindings`: the service instance id and the stored binding id
(empty when the platform never assigned one). -/
structure ServiceBindingEntry where
  service_instance : String
  binding_id : String
deriving DecidableEq, Repr

/-- Embedding of `removeServiceBindings` (lines 1575-1593): each entry with a
non-empty binding id has `am.DeleteServiceBinding` called on it and any error
aborts the loop; entries with an empty binding id are only logged and
skipped. Returns the binding ids the delete capability was invoked on and the
surfaced error. -/
def removeServiceBindings (entries : List ServiceBindingEntry)
    (deleteServiceBinding : String → Option CFError) : List String × Option CFError :=
  match entries with
  | [] => ([], none)
  | b :: rest =>
    if 0 < b.binding_id.length then
      match deleteServiceBinding b.binding_id with
      | some e => ([b.binding_id], some e)
      | none =>
        let tail := removeServiceBindings rest deleteServiceBinding
        (b.binding_id :: tail.1, tail.2)
    else removeServiceBindings rest deleteServiceBinding

/-- Embedding of `resourceAppDelete` (lines 1314-1376): first the service
bindings are removed (any error aborts), then the legacy slot mapping ids and
the routes set mapping ids are deleted (a 404 is swallowed, any other error
aborts), and finally `am.DeleteApp` is called; every error of that final call
is only logged and the function returns nil regardless. -/
def resourceAppDelete (bindings : List ServiceBindingEntry)
    (deleteServiceBinding : String → Option CFError)
    (legacySlotIds routesIds : List (Option String))
    (deleteMapping : String → Option CFError)
    (deleteAppErr : Option CFError) : Option CFError :=
  match (removeServiceBindings bindings deleteServiceBinding).2 with
  | some e => some e
  | none =>
    match deleteMappingsPhase legacySlotIds deleteMapping with
    | some e => some e
    | none =>
      match deleteMappingsPhase routesIds deleteMapping with
      | some e => some e
      | none =>
        match deleteAppErr with
        | some _ => none
        | none => none

/-! Theorems. -/

/-- C1: evaluation of the deposed-pruning loop of `resourceAppRead` at a
deposed id whose application still exists upstream (the existence check
succeeds). The code drops the id from the deposed set, while the spec's
reconcileOnRead (`pruneDeposedClaim`) retains it; the code keeps an id only
when the check fails with a non-404 error, and drops it both on a 404 and on
success. -/
theorem pruneDeposedDropsExistingApp :
    pruneDeposed (fun _ => ReadAppResult.found) ["app-0"] = []
    ∧ pruneDeposedClaim (fun _ => ReadAppResult.found) ["app-0"] = ["app-0"]
    ∧ pruneDeposed (fun _ => ReadAppResult.missing404) ["app-0"] = []
    ∧ pruneDeposed (fun _ => ReadAppResult.failedOther) ["app-0"] = ["app-0"] := by
  decide

/-- C2 (amended): the field-to-tier mapping of `resourceAppUpdate`: a change
confined to name, space, instance count or the SSH flag yields exactly the
in-place-update tier; a restart-group change with no restage-group change
yields the restart tier; any restage-group change yields the restage tier;
and a switch of source kind forces full replacement exactly when it crosses
the docker boundary, a switch among url, git and release does not trigger
the CustomizeDiff replacement. Two specs differing only in instance count
yield exactly the in-place-update tier. -/
theorem changeTierMapping (c : AppChanges) (a b : SourceKind) :
    ((c.name || c.space || c.instances || c.enable_ssh) = true →
       restartFlag c = false → restageFlag c = false →
       tier c = ChangeTier.inPlaceUpdate)
    ∧ (restartFlag c = true → restageFlag c = false → tier c = ChangeTier.restart)
    ∧ (restageFlag c = true → tier c = ChangeTier.restage)
    ∧ (a ≠ b →
        (forceNewTriggered (switchChanges a b) = true ↔
          (a = SourceKind.fromDocker ∨ b = SourceKind.fromDocker)))
    ∧ tier instancesOnly = ChangeTier.inPlaceUpdate := by
  refine ⟨?_, ?_, ?_, ?_, by decide⟩
  · intro h1 h2 h3
    have hup : updateFlag c = true := by
      simp only [updateFlag]
      simp only [Bool.or_eq_true] at h1 ⊢
      tauto
    simp [tier, h2, h3, hup]
  · intro h1 h2
    simp [tier, h1, h2]
  · intro h1
    simp [tier, h1]
  · intro hab
    cases a <;> cases b <;> simp_all <;> decide

/-- C2 counterexample: switching the application source from a url to a git
repository changes two source kinds, yet the CustomizeDiff hook does not
force a new resource and no update tier is raised at all, refuting the
claim that every change of source kind forces full replacement. -/
theorem changeTierSourceSwitchCounterexample :
    SourceKind.fromUrl ≠ SourceKind.fromGit
    ∧ forceNewTriggered (switchChanges SourceKind.fromUrl SourceKind.fromGit) = false
    ∧ tier (switchChanges SourceKind.fromUrl SourceKind.fromGit) = ChangeTier.noop := by
  decide

/-- C2 witness: the instance-count-only change is classified in-place, and
the url-to-docker switch does force replacement. -/
theorem changeTierMapping_witness :
    tier instancesOnly = ChangeTier.inPlaceUpdate
    ∧ forceNewTriggered (switchChanges SourceKind.fromUrl SourceKind.fromDocker) = true := by
  have h := changeTierMapping instancesOnly SourceKind.fromUrl SourceKind.fromDocker
  exact ⟨h.1 (by decide) (by decide) (by decide),
         (h.2.2.2.1 (by decide)).mpr (Or.inr rfl)⟩

/-- Helper: the tier computed from a change vector is restart-or-higher
exactly when the restart or the restage flag is raised. -/
theorem restartLeTier_iff (c : AppChanges) :
    ChangeTier.rank ChangeTier.restart ≤ ChangeTier.rank (tier c)
      ↔ (restartFlag c || restageFlag c) = true := by
  unfold tier
  split_ifs with h1 h2 h3 <;> simp_all [ChangeTier.rank]

/-- C3 (amended): with observed state present, the update takes the
blue-green path exactly when the blue-green opt-in flag is enabled and the
classifier's tier is restart-or-higher or a binary or service-binding
attribute changed; a change of the route attributes alone never selects the
blue-green path, and without the opt-in the standard path is always taken. -/
theorem blueGreenDecisionRule (hasBG en : Bool) (c : AppChanges) :
    blueGreenChosen hasBG en c = true ↔
      (hasBG = true ∧ en = true ∧
        (ChangeTier.rank ChangeTier.restart ≤ ChangeTier.rank (tier c)
         ∨ binaryChanged c = true ∨ c.service_binding = true)) := by
  rw [restartLeTier_iff]
  unfold blueGreenChosen binaryChanged
  cases hasBG <;> cases en <;> simp [Bool.or_eq_true] <;> tauto

/-- C3 counterexample: with blue-green enabled and only the route attributes
changed, the code chooses the standard-update path while the claim's
condition (which counts route changes) chooses the blue-green path. -/
theorem blueGreenRouteOnlyCounterexample :
    blueGreenChosen true true routesOnlyChanges = false
    ∧ blueGreenChosenClaim true true routesOnlyChanges = true := by
  decide

/-- C3 witness: a memory-only change (restart tier) with the opt-in enabled
selects the blue-green path. -/
theorem blueGreenDecisionRule_witness :
    blueGreenChosen true true { noChanges with memory := true } = true :=
  (blueGreenDecisionRule true true { noChanges with memory := true }).mpr
    ⟨rfl, rfl, Or.inl (by decide)⟩

/-- C6: scaling a blue-green rollout to four desired instances from a
venerable application at two instances issues replacement updates to 2, 3
and 4 instances with the single venerable decrement from 2 to 1 interleaved
after the first step, then deletes the venerable application and removes its
id from the deposed set, leaving the set empty. -/
theorem blueGreenScaleScenario :
    blueGreenScalePhase 4 2 "venerable-id" [] true =
      ([ScaleCall.scaleReplacement 2, ScaleCall.scaleVenerable 1,
        ScaleCall.scaleReplacement 3, ScaleCall.scaleReplacement 4], true, []) := by
  unfold blueGreenScalePhase
  rw [scaleExchange]
  norm_num
  rw [scaleExchange]
  norm_num
  rw [scaleExchange]
  norm_num
  rw [scaleExchange]
  norm_num

/-- C4 (amended): whenever a step after the successful `am.CreateApp` call
fails, the deferred cleanup of `resourceAppCreateCfApp` attempts to delete
the just-created application; the caller then sees the failing step's
original error when that deletion succeeds, but the deletion's own error when
it fails. -/
theorem createFailureCleanup (e : CreateEnv) (er : CFError)
    (hc : e.createErr = none) (hs : (createCfApp e).stepErr = some er) :
    CreateStep.cleanupDeleteApp ∈ (createCfApp e).trace
    ∧ (createCfApp e).result =
        (match e.cleanupDeleteErr with
         | none => some er
         | some d => some d) := by
  unfold createCfApp at hs ⊢
  rw [hc] at hs ⊢
  repeat' split at hs
  all_goals simp_all [finishWithCleanup]

/-- C4 counterexample: the service-binding step fails with one error and the
cleanup delete fails with another; the operation attempts the delete but
returns the delete's error, not the original error of the failing step as
the claim states. -/
theorem createCleanupMasksErrorCounterexample :
    (createCfApp createEnvBindFailDeleteFail).stepErr = some ⟨false, "binding refused"⟩
    ∧ (createCfApp createEnvBindFailDeleteFail).result = some ⟨false, "delete refused"⟩
    ∧ (⟨false, "delete refused"⟩ : CFError) ≠ ⟨false, "binding refused"⟩ := by
  decide

/-- C4 witness: when the binding step fails and the cleanup delete succeeds,
the delete is attempted and the binding error is returned. -/
theorem createFailureCleanup_witness :
    CreateStep.cleanupDeleteApp ∈ (createCfApp createEnvBindFailDeleteOk).trace
    ∧ (createCfApp createEnvBindFailDeleteOk).result = some ⟨false, "binding refused"⟩ := by
  have h := createFailureCleanup createEnvBindFailDeleteOk ⟨false, "binding refused"⟩
    (by decide) (by decide)
  exact ⟨h.1, h.2.trans (by decide)⟩

/-- C5 (amended): on a non-docker create in which the binding and route steps
succeed and the asynchronous upload task fails, the upload join is reached,
no start call is ever made, the upload's error is the failing step's error,
and the caller receives that upload error when the cleanup deletion succeeds
(the deletion's error otherwise). A start call can appear in a non-docker
trace only after a join whose upload succeeded. -/
theorem uploadJoinBarrier (e : CreateEnv) (u : CFError)
    (hd : e.docker = false) (hc : e.createErr = none)
    (hb : e.bindErr = none) (hmd : e.mapDefaultErr = none) (hml : e.mapLiveErr = none)
    (hu : e.uploadErr = some u) :
    (CreateStep.startApp ∉ (createCfApp e).trace
     ∧ CreateStep.joinUpload ∈ (createCfApp e).trace
     ∧ (createCfApp e).stepErr = some u
     ∧ (createCfApp e).result =
         (match e.cleanupDeleteErr with
          | none => some u
          | some d => some d))
    ∧ (∀ e2 : CreateEnv, e2.docker = false → e2.createErr = none →
        CreateStep.startApp ∈ (createCfApp e2).trace →
        e2.uploadErr = none ∧ CreateStep.joinUpload ∈ (createCfApp e2).trace) := by
  constructor
  · obtain ⟨dk, st, hbind, dr, lr, ce, be, mde, mle, ue, se, re, cde⟩ := e
    simp only at hd hc hb hmd hml hu
    subst hd hc hb hmd hml hu
    cases hbind <;> by_cases hdr : dr = "" <;> by_cases hlr : lr = "" <;>
      simp [createCfApp, finishWithCleanup, hdr, hlr]
  · intro e2 hd2 hc2 hstart
    obtain ⟨dk, st, hbind, dr, lr, ce, be, mde, mle, ue, se, re, cde⟩ := e2
    simp only at hd2 hc2
    subst hd2 hc2
    unfold createCfApp at hstart ⊢
    repeat' split at hstart
    all_goals simp_all [finishWithCleanup]

/-- C5 counterexample: the upload task fails while bindings and routes
succeeded, and the cleanup delete also fails; no start call is made, but the
operation returns the cleanup delete's error instead of the upload's error,
refuting the claim that the upload's error is always returned. -/
theorem uploadFailureMaskedCounterexample :
    CreateStep.startApp ∉ (createCfApp createEnvUploadFailDeleteFail).trace
    ∧ (createCfApp createEnvUploadFailDeleteFail).stepErr = some ⟨false, "upload broken"⟩
    ∧ (createCfApp createEnvUploadFailDeleteFail).result ≠ some ⟨false, "upload broken"⟩ := by
  decide

/-- C5 witness: with a failing upload and a succeeding cleanup delete, no
start call is made and the upload's error is returned. -/
theorem uploadJoinBarrier_witness :
    CreateStep.startApp ∉ (createCfApp createEnvUploadFailDeleteOk).trace
    ∧ (createCfApp createEnvUploadFailDeleteOk).result = some ⟨false, "upload broken"⟩ := by
  have h := uploadJoinBarrier createEnvUploadFailDeleteOk ⟨false, "upload broken"⟩
    (by decide) (by decide) (by decide) (by decide) (by decide) (by decide)
  exact ⟨h.1.1, h.1.2.2.2.trans (by decide)⟩

/-- C7 (amended): `validateRoute` returns the route id without error exactly
when the route is unmapped or has exactly one mapping whose application is
the excluded id; every other non-empty mapping list is rejected, including a
list of several mappings all to the excluded application; a failure of the
mapping lookup itself is returned as that failure. -/
theorem validateRouteCharacterization (routeID appID : String)
    (ms : List (Option String)) (e : CFError) :
    ((validateRoute (some routeID) appID (fun _ => Except.ok ms)).2 = none
       ↔ (ms = [] ∨ ms = [some appID]))
    ∧ (validateRoute (some routeID) appID (fun _ => Except.ok ms)).1 = routeID
    ∧ (validateRoute (some routeID) appID (fun _ => Except.error e)).2
        = some (RouteValidationError.readFailure e) := by
  refine ⟨?_, ?_, rfl⟩
  · rcases ms with _ | ⟨a, _ | ⟨b, t⟩⟩
    · simp [validateRoute]
    · by_cases ha : a = some appID <;> simp [validateRoute, ha]
    · simp [validateRoute]
  · simp only [validateRoute]
    split_ifs <;> rfl

/-- C7 counterexample: a route carrying two mappings that both point at the
excluded application is rejected by `validateRoute`, although the claim says
a route mapped only to the excluded application is accepted. -/
theorem validateRouteDoubleSelfMappingCounterexample :
    (validateRoute (some "r1") "appX"
        (fun _ => Except.ok [some "appX", some "appX"])).2
      = some RouteValidationError.alreadyMapped
    ∧ ([some "appX", some "appX"] : List (Option String)).all
        (fun m => m = some "appX") = true := by
  decide

/-- C7 witness: a route with exactly one mapping to the excluded application
is accepted. -/
theorem validateRouteCharacterization_witness :
    (validateRoute (some "r1") "appX" (fun _ => Except.ok [some "appX"])).2 = none :=
  ((validateRouteCharacterization "r1" "appX" [some "appX"] ⟨false, "x"⟩).1).mpr
    (Or.inr rfl)

/-- C8: in the legacy-slot update (`updateAppRouteMappings`), in the
routes-set reconciliation of `resourceAppStandardUpdate`, and in the
mapping-deletion loops of `resourceAppDelete`, a 404 answer to a
route-mapping delete is treated as success: the operation surfaces no error
for that delete and continues, while any surfaced delete error is a non-404
error. -/
theorem routeMappingDelete404Tolerated
    (dm : String → Option CFError)
    (old : RouteSlotConfig) (appID oldMid : String) (er : CFError)
    (ids rids : List (Option String)) :
    (old.routeID ≠ "" → old.mappingID = some oldMid →
       dm oldMid = some er → er.is404 = true →
       (updateAppRouteMappings old ⟨"", none⟩ appID (fun _ _ => Except.ok "") dm).2 = none)
    ∧ (old.routeID ≠ "" → old.mappingID = some oldMid →
       dm oldMid = some er → er.is404 = false →
       (updateAppRouteMappings old ⟨"", none⟩ appID (fun _ _ => Except.ok "") dm).2 = some er)
    ∧ ((∀ mid e2, dm mid = some e2 → e2.is404 = true) →
        (removeRoutesSetMappings ids dm).2 = none)
    ∧ (∀ e2, (removeRoutesSetMappings ids dm).2 = some e2 → e2.is404 = false)
    ∧ ((∀ mid e2, dm mid = some e2 → e2.is404 = true) →
        deleteMappingsPhase rids dm = none)
    ∧ (∀ e2, deleteMappingsPhase rids dm = some e2 → e2.is404 = false) := by
  refine ⟨?_, ?_, ?_, ?_, ?_, ?_⟩
  · intro h1 h2 h3 h4
    simp [updateAppRouteMappings, h1, h2, h3, h4]
  · intro h1 h2 h3 h4
    simp [updateAppRouteMappings, h1, h2, h3, h4]
  · intro hall
    induction ids with
    | nil => simp [removeRoutesSetMappings]
    | cons iOpt rest ih =>
      cases iOpt with
      | none => exact ih
      | some mid =>
        by_cases hlen : 0 < mid.length
        · cases hdm : dm mid with
          | none => simpa [removeRoutesSetMappings, hlen, hdm] using ih
          | some e2 =>
            have h404 := hall mid e2 hdm
            simpa [removeRoutesSetMappings, hlen, hdm, h404] using ih
        · simpa [removeRoutesSetMappings, hlen] using ih
  · intro e2
    induction ids with
    | nil => intro h; simp [removeRoutesSetMappings] at h
    | cons iOpt rest ih =>
      intro h
      cases iOpt with
      | none =>
        rw [removeRoutesSetMappings] at h
        exact ih h
      | some mid =>
        rw [removeRoutesSetMappings] at h
        by_cases hlen : 0 < mid.length
        · simp only [hlen, if_true] at h
          cases hdm : dm mid with
          | none => rw [hdm] at h; exact ih h
          | some e3 =>
            rw [hdm] at h
            by_cases h404 : e3.is404 = true
            · simp only [h404, if_true] at h
              exact ih h
            · simp only [h404, if_false] at h
              first
              | (subst h
                 simpa using h404)
              | (injection h with hinj
                 subst hinj
                 simpa using h404)
              | simp_all
        · simp only [hlen, if_false] at h
          exact ih h
  · intro hall
    induction rids with
    | nil => simp [deleteMappingsPhase]
    | cons iOpt rest ih =>
      cases iOpt with
      | none => exact ih
      | some mid =>
        by_cases hlen : 0 < mid.length
        · cases hdm : dm mid with
          | none => simpa [deleteMappingsPhase, hlen, hdm] using ih
          | some e2 =>
            have h404 := hall mid e2 hdm
            simpa [deleteMappingsPhase, hlen, hdm, h404] using ih
        · simpa [deleteMappingsPhase, hlen] using ih
  · intro e2
    induction rids with
    | nil => intro h; simp [deleteMappingsPhase] at h
    | cons iOpt rest ih =>
      intro h
      cases iOpt with
      | none =>
        rw [deleteMappingsPhase] at h
        exact ih h
      | some mid =>
        rw [deleteMappingsPhase] at h
        by_cases hlen : 0 < mid.length
        · simp only [hlen, if_true] at h
          cases hdm : dm mid with
          | none => rw [hdm] at h; exact ih h
          | some e3 =>
            rw [hdm] at h
            by_cases h404 : e3.is404 = true
            · simp only [h404, if_true] at h
              exact ih h
            · simp only [h404, if_false] at h
              first
              | (subst h
                 simpa using h404)
              | (injection h with hinj
                 subst hinj
                 simpa using h404)
              | simp_all
        · simp only [hlen, if_false] at h
          exact ih h

/-- C8 witness: a legacy-slot route removal whose delete answers 404
surfaces no error, and a routes-set removal over two mapping ids whose
deletes both answer 404 surfaces no error. -/
theorem routeMappingDelete404Tolerated_witness :
    (updateAppRouteMappings ⟨"r-old", some "m-old"⟩ ⟨"", none⟩ "app-1"
        (fun _ _ => Except.ok "") (fun _ => some ⟨true, "status code: 404"⟩)).2 = none
    ∧ (removeRoutesSetMappings [some "m1", some "m2"]
        (fun _ => some ⟨true, "status code: 404"⟩)).2 = none := by
  have h := routeMappingDelete404Tolerated (fun _ => some ⟨true, "status code: 404"⟩)
    ⟨"r-old", some "m-old"⟩ "app-1" "m-old" ⟨true, "status code: 404"⟩
    [some "m1", some "m2"] []
  refine ⟨h.1 (by decide) rfl rfl rfl, h.2.2.1 ?_⟩
  intro mid e2 hm
  injection hm with hinj
  rw [← hinj]

/-- C9: `removeServiceBindings` invokes the remote delete capability only on
entries with a non-empty binding id; a list whose entries all lack a binding
id produces no delete call and no error; and when every issued delete
succeeds, the delete capability is invoked exactly on the non-empty binding
ids, in order, with no error. -/
theorem removeServiceBindingsSkipsEmpty (entries : List ServiceBindingEntry)
    (del : String → Option CFError) :
    (∀ id0 : String, id0 ∈ (removeServiceBindings entries del).1 →
       0 < id0.length ∧ ∃ b ∈ entries, b.binding_id = id0)
    ∧ ((∀ b ∈ entries, b.binding_id = "") →
        removeServiceBindings entries del = ([], none))
    ∧ ((∀ b ∈ entries, 0 < b.binding_id.length → del b.binding_id = none) →
        removeServiceBindings entries del =
          ((entries.filter (fun b => 0 < b.binding_id.length)).map
            (fun b => b.binding_id), none)) := by
  refine ⟨?_, ?_, ?_⟩
  · induction entries with
    | nil => intro id0 h; simp [removeServiceBindings] at h
    | cons b rest ih =>
      intro id0 h
      rw [removeServiceBindings] at h
      by_cases hlen : 0 < b.binding_id.length
      · simp only [hlen, if_true] at h
        cases hdel : del b.binding_id with
        | some e =>
          rw [hdel] at h
          simp only [List.mem_singleton] at h
          subst h
          exact ⟨hlen, b, by simp⟩
        | none =>
          rw [hdel] at h
          simp only [List.mem_cons] at h
          rcases h with rfl | h
          · exact ⟨hlen, b, by simp⟩
          · obtain ⟨h1, b2, hb2, hid⟩ := ih id0 h
            exact ⟨h1, b2, by simp [hb2], hid⟩
      · simp only [hlen, if_false] at h
        obtain ⟨h1, b2, hb2, hid⟩ := ih id0 h
        exact ⟨h1, b2, by simp [hb2], hid⟩
  · intro hall
    induction entries with
    | nil => rfl
    | cons b rest ih =>
      have hb := hall b (by simp)
      rw [removeServiceBindings]
      simp only [hb]
      simp only [String.length]
      exact ih (fun b2 hb2 => hall b2 (by simp [hb2]))
  · intro hall
    induction entries with
    | nil => rfl
    | cons b rest ih =>
      by_cases hlen : 0 < b.binding_id.length
      · have hdel := hall b (by simp) hlen
        rw [removeServiceBindings]
        simp only [hlen, if_true, hdel, List.filter_cons, List.map_cons]
        have := ih (fun b2 hb2 h2 => hall b2 (by simp [hb2]) h2)
        simp [this, hlen]
      · rw [removeServiceBindings]
        simp only [hlen, if_false]
        have := ih (fun b2 hb2 h2 => hall b2 (by simp [hb2]) h2)
        simp [this, List.filter_cons, hlen]

/-- C9 witness: an entry with an empty binding id is skipped while the entry
with a non-empty binding id is the only one deleted, with no error. -/
theorem removeServiceBindingsSkipsEmpty_witness :
    removeServiceBindings
        [⟨"svc-1", ""⟩, ⟨"svc-2", "bind-2"⟩] (fun _ => none) = (["bind-2"], none) := by
  have h := removeServiceBindingsSkipsEmpty
    [⟨"svc-1", ""⟩, ⟨"svc-2", "bind-2"⟩] (fun _ => none)
  have h3 := h.2.2 (fun b hb hlen => rfl)
  exact h3.trans (by decide)

/-- C10: `resourceAppDelete` returns nil exactly when the binding-removal
phase and the two route-mapping deletion phases surface no error; the result
never depends on the outcome of the final `am.DeleteApp` call, whose errors
(404 or not) are only logged. -/
theorem resourceAppDeleteSwallowsFinalError (bindings : List ServiceBindingEntry)
    (delBinding : String → Option CFError)
    (legacyIds routesIds : List (Option String))
    (dm : String → Option CFError)
    (dErr : Option CFError) :
    (resourceAppDelete bindings delBinding legacyIds routesIds dm dErr = none ↔
      ((removeServiceBindings bindings delBinding).2 = none
       ∧ deleteMappingsPhase legacyIds dm = none
       ∧ deleteMappingsPhase routesIds dm = none))
    ∧ (∀ d1 d2 : Option CFError,
        resourceAppDelete bindings delBinding legacyIds routesIds dm d1 =
        resourceAppDelete bindings delBinding legacyIds routesIds dm d2) := by
  constructor
  · unfold resourceAppDelete
    rcases h1 : (removeServiceBindings bindings delBinding).2 with _ | e1 <;>
      rcases h2 : deleteMappingsPhase legacyIds dm with _ | e2 <;>
        rcases h3 : deleteMappingsPhase routesIds dm with _ | e3 <;>
          rcases dErr with _ | d <;> simp_all
  · intro d1 d2
    unfold resourceAppDelete
    rcases h1 : (removeServiceBindings bindings delBinding).2 with _ | e1 <;>
      rcases h2 : deleteMappingsPhase legacyIds dm with _ | e2 <;>
        rcases h3 : deleteMappingsPhase routesIds dm with _ | e3 <;>
          rcases d1 with _ | dd1 <;> rcases d2 with _ | dd2 <;> simp_all

/-- C10 witness: a delete whose bindings and mappings are removed cleanly
returns nil although the final application delete fails with a non-404
error. -/
theorem resourceAppDeleteSwallowsFinalError_witness :
    resourceAppDelete [⟨"svc-1", "bind-1"⟩] (fun _ => none) [some "m1"] [some "m2"]
      (fun _ => none) (some ⟨false, "delete exploded"⟩) = none := by
  have h := resourceAppDeleteSwallowsFinalError [⟨"svc-1", "bind-1"⟩] (fun _ => none)
    [some "m1"] [some "m2"] (fun _ => none) (some ⟨false, "delete exploded"⟩)
  exact h.1.mpr (by decide)


end CFApp
